import Mathlib

/-!
Verification of the dongchedi_parser normalization and pagination pipeline.

The definitions below are a shallow embedding of the repository's Python
sources:

* `src/constants.py` — the substitution tables;
* `src/configuration_parser.py` — `validate_value` and
  `get_validate_and_translate_value` (value-cell normalization);
* `src/main_page_parser.py` — `CarParser._text_to_float` and the
  `image_<i>.<ext>` naming scheme of `download_images`;
* `src/pdf_creator.py` — the `PDFWriter` cursor-based layout engine
  (`_draw_text_block`, `draw_car_info`, `draw_images_from_dir`, `save`,
  `create_pdf`).

Python strings are embedded as `String` / `List Char`, floats as `ℚ`
(exact for every value appearing in the theorems below), dictionaries as
functions into `Option`, and fallible code as `Option`-returning
functions.  The theorems after the definitions settle the specification
claims about this code.
-/

/-! ### Basic string machinery shared by the embeddings -/

/-- Does `ptn` occur at the start of `s`?  (model of Python `str.startswith`
used to implement substring search and replacement). -/
def leadsWith : List Char → List Char → Bool
  | [], _ => true
  | _ :: _, [] => false
  | a :: as, b :: bs => if a = b then leadsWith as bs else false

/-- Does `ptn` occur anywhere inside `s`?  (model of Python `'ptn' in s`). -/
def containsSeq (ptn : List Char) : List Char → Bool
  | [] => ptn.isEmpty
  | c :: rest => leadsWith ptn (c :: rest) || containsSeq ptn rest

/-- Fuel-driven worker for `replaceAll`; the fuel is the length of the
subject string, which bounds the number of steps since every step consumes
at least one character (the pattern is required to be nonempty). -/
def replaceAllAux : ℕ → List Char → List Char → List Char → List Char
  | 0, _, _, s => s
  | fuel + 1, ptn, repl, s =>
    if ptn ≠ [] ∧ leadsWith ptn s = true then
      repl ++ replaceAllAux fuel ptn repl (s.drop ptn.length)
    else
      match s with
      | [] => []
      | c :: rest => c :: replaceAllAux fuel ptn repl rest

/-- Left-to-right, non-overlapping replacement of every occurrence of `ptn`
by `repl` (model of Python `str.replace`; replacements are not rescanned). -/
def replaceAll (ptn repl s : List Char) : List Char :=
  replaceAllAux s.length ptn repl s

/-- Is `c` one of the characters stripped by `rstrip(', ')`? -/
def stripCh (c : Char) : Bool := if c = ',' then true else if c = ' ' then true else false

/-- Model of Python `s.rstrip(', ')`: remove every trailing character that
is a comma or a space. -/
def rstripCommaSpace (s : String) : String :=
  String.mk ((s.data.reverse.dropWhile stripCh).reverse)

/-! ### `src/constants.py` -/

/-- `SPECIAL_REPLACEMENTS` from `src/constants.py`, in dict insertion
order. -/
def SPECIAL_REPLACEMENTS : List (String × String) :=
  [("图示", ""), ("马力", " л.с."), ("版本", "Версия")]

/-- `SPECIAL_CHARS_TO_NUMBERS` from `src/constants.py`: the known
numeral-glyph substitution table, as a partial map keyed on the glyph's
code point.  The last three glyphs (万, 公, 里 markers) map to the empty
string. -/
def SPECIAL_CHARS_TO_NUMBERS (c : Char) : Option (List Char) :=
  if c.toNat = 0xe53d then some ['1']
  else if c.toNat = 0xe3f0 then some ['2']
  else if c.toNat = 0xe422 then some ['3']
  else if c.toNat = 0xe42c then some ['4']
  else if c.toNat = 0xe49c then some ['5']
  else if c.toNat = 0xe42b then some ['6']
  else if c.toNat = 0xe4fe then some ['7']
  else if c.toNat = 0xe548 then some ['8']
  else if c.toNat = 0xe4c8 then some ['9']
  else if c.toNat = 0xe453 then some ['0']
  else if c.toNat = 0xe45f then some []
  else if c.toNat = 0xe531 then some []
  else if c.toNat = 0xe4fc then some []
  else none

/-! ### `src/configuration_parser.py` -/

/-- Apply every `SPECIAL_REPLACEMENTS` rule to `s`, in table order
(the loop `for find, replace in SPECIAL_REPLACEMENTS.items()`). -/
def applyReplacements (s : String) : String :=
  SPECIAL_REPLACEMENTS.foldl (fun acc pr => String.mk (replaceAll pr.1.data pr.2.data acc.data)) s

/-- `validate_value` from `src/configuration_parser.py`.  Python's
`return False` is embedded as `none`; the three string results
(`'option'`, `'-'`, and the cleaned value) as `some`.  The flag is the
`with_empty_parameters` configuration value compared against `1`. -/
def validate_value (value : String) (flag : ℕ) : Option String :=
  if '○' ∈ value.data then some "option"
  else if value = "" then (if flag = 1 then some "-" else none)
  else
    let v := applyReplacements value
    if containsSeq ("CVT" : String).data v.data = true then some "Вариатор"
    else some v

/-- The value-dictionary lookup inside `get_validate_and_translate_value`:
`values_translation[v]` when the key is present, otherwise `v` itself.
The dictionary (loaded from `parameters_values_translation`, not under
`src/`) is a parameter. -/
def translateValue (vt : String → Option String) (v : String) : String :=
  (vt v).getD v

/-- The cell loop of `get_validate_and_translate_value`: walk the value
cells accumulating `parameter_value`, with Python's early `return False`
(on a falsy validated value) embedded as `none`, `'option'` cells skipped,
and the final `rstrip(', ')` applied when the loop finishes. -/
def gvtvGo (flag : ℕ) (vt : String → Option String) : List String → String → Option String
  | [], acc => some (rstripCommaSpace acc)
  | c :: rest, acc =>
    (validate_value c flag).bind fun v =>
      if v = "" then none
      else if v = "option" then gvtvGo flag vt rest acc
      else gvtvGo flag vt rest (acc ++ translateValue vt v ++ ", ")

/-- `get_validate_and_translate_value` from `src/configuration_parser.py`,
with the list of cell texts (`div.get_text()` of each
`cell_normal__37nRi` div) and the values dictionary as parameters.  An
empty div list returns `False` (`none`). -/
def get_validate_and_translate_value (cells : List String) (flag : ℕ)
    (vt : String → Option String) : Option String :=
  if cells = [] then none else gvtvGo flag vt cells ""

/-! ### Helper lemmas about the cell loop -/

theorem head?_dropWhile_not {α : Type} (p : α → Bool) :
    ∀ (l : List α) (a : α), (l.dropWhile p).head? = some a → p a = false := by
  intro l
  induction l with
  | nil => intro a h; simp [List.dropWhile] at h
  | cons b t ih =>
    intro a h
    by_cases hb : p b = true
    · rw [List.dropWhile_cons_of_pos hb] at h
      exact ih a h
    · rw [List.dropWhile_cons_of_neg hb] at h
      simp at h
      subst h
      simpa using hb

theorem rstrip_last_not_strip (s : String) (c : Char)
    (h : (rstripCommaSpace s).data.getLast? = some c) : stripCh c = false := by
  have hd : (rstripCommaSpace s).data = (s.data.reverse.dropWhile stripCh).reverse := rfl
  rw [hd, List.getLast?_reverse] at h
  exact head?_dropWhile_not stripCh _ c h

theorem gvtvGo_some_shape (flag : ℕ) (vt : String → Option String) :
    ∀ (cells : List String) (acc v : String),
      gvtvGo flag vt cells acc = some v → ∃ a, v = rstripCommaSpace a := by
  intro cells
  induction cells with
  | nil =>
    intro acc v h
    simp [gvtvGo] at h
    exact ⟨acc, h.symm⟩
  | cons c rest ih =>
    intro acc v h
    rw [gvtvGo] at h
    cases hv : validate_value c flag with
    | none => rw [hv] at h; simp at h
    | some w =>
      rw [hv, Option.some_bind] at h
      by_cases hw : w = ""
      · rw [if_pos hw] at h; simp at h
      · rw [if_neg hw] at h
        by_cases ho : w = "option"
        · rw [if_pos ho] at h; exact ih acc v h
        · rw [if_neg ho] at h; exact ih _ v h

theorem gvtvGo_skip_marker (flag : ℕ) (vt : String → Option String)
    (m : String) (hm : '○' ∈ m.data) (after : List String) :
    ∀ (before : List String) (acc : String),
      gvtvGo flag vt (before ++ m :: after) acc = gvtvGo flag vt (before ++ after) acc := by
  have hvm : validate_value m flag = some "option" := by
    unfold validate_value
    rw [if_pos hm]
  intro before
  induction before with
  | nil =>
    intro acc
    simp only [List.nil_append]
    rw [gvtvGo, hvm, Option.some_bind]
    simp
  | cons b bs ih =>
    intro acc
    simp only [List.cons_append]
    rw [gvtvGo, gvtvGo]
    cases hv : validate_value b flag with
    | none => rfl
    | some w =>
      simp only [Option.some_bind]
      by_cases hw : w = ""
      · rw [if_pos hw, if_pos hw]
      · rw [if_neg hw, if_neg hw]
        by_cases ho : w = "option"
        · rw [if_pos ho, if_pos ho]; exact ih acc
        · rw [if_neg ho, if_neg ho]; exact ih _

theorem gvtvGo_fatal (flag : ℕ) (vt : String → Option String)
    (c : String) (hc : validate_value c flag = none ∨ validate_value c flag = some "")
    (after : List String) :
    ∀ (before : List String),
      (∀ b ∈ before, ∃ v, validate_value b flag = some v ∧ v ≠ "") →
      ∀ acc, gvtvGo flag vt (before ++ c :: after) acc = none := by
  intro before
  induction before with
  | nil =>
    intro _ acc
    simp only [List.nil_append]
    rw [gvtvGo]
    cases hc with
    | inl h => rw [h]; rfl
    | inr h => rw [h, Option.some_bind]; simp
  | cons b bs ih =>
    intro hb acc
    obtain ⟨v, hv, hne⟩ := hb b (List.mem_cons_self b bs)
    have hbs : ∀ x ∈ bs, ∃ v, validate_value x flag = some v ∧ v ≠ "" :=
      fun x hx => hb x (List.mem_cons_of_mem b hx)
    simp only [List.cons_append]
    rw [gvtvGo, hv, Option.some_bind, if_neg hne]
    by_cases ho : v = "option"
    · rw [if_pos ho]; exact ih hbs acc
    · rw [if_neg ho]; exact ih hbs _

/-! ### Claim theorems about the Attribute Normalizer -/

/-- C1 (counterexample): with `include_empty = false`, a raw-empty cell
does not merely "contribute nothing": the whole label is dropped even
though the remaining cell `"Leather"` would survive on its own. -/
theorem empty_cell_aborts_label_cex :
    get_validate_and_translate_value ["", "Leather"] 0 (fun _ => none) = none
    ∧ get_validate_and_translate_value ["Leather"] 0 (fun _ => none) = some "Leather" :=
  ⟨rfl, rfl⟩

/-- C1 (amended): any cell validating to nothing (a raw-empty cell with
`include_empty = false`) or to the empty string (a cell whose text becomes
empty only after substitution, regardless of the flag) aborts the whole
label immediately, even when other cells validate to non-empty values;
with `include_empty = true`, a raw-empty cell yields the placeholder `"-"`
while a substitution-emptied cell (e.g. `"图示"`) still yields `""` and
hence aborts the label. -/
theorem empty_cell_aborts_label :
    (∀ (vt : String → Option String) (flag : ℕ) (before : List String) (c : String)
        (after : List String),
        (∀ b ∈ before, ∃ v, validate_value b flag = some v ∧ v ≠ "") →
        (validate_value c flag = none ∨ validate_value c flag = some "") →
        get_validate_and_translate_value (before ++ c :: after) flag vt = none)
    ∧ validate_value "" 1 = some "-"
    ∧ validate_value "" 0 = none
    ∧ validate_value "图示" 1 = some "" := by
  refine ⟨?_, rfl, rfl, rfl⟩
  intro vt flag before c after hb hc
  unfold get_validate_and_translate_value
  rw [if_neg (by simp)]
  exact gvtvGo_fatal flag vt c hc after before hb ""

/-- C1 (witness): concrete instance of the early-abort behaviour at
cells `["Leather", "", "X"]` with `include_empty = false`. -/
theorem empty_cell_aborts_label_witness :
    get_validate_and_translate_value ["Leather", "", "X"] 0 (fun _ => none) = none :=
  empty_cell_aborts_label.1 (fun _ => none) 0 ["Leather"] "" ["X"]
    (by
      intro b hb
      simp only [List.mem_singleton] at hb
      exact ⟨"Leather", by rw [hb]; rfl, by decide⟩)
    (Or.inl rfl)

/-- C8: option-marker cells contribute nothing to the joined value: a cell
containing the `○` glyph may be removed from the cell list without
changing the result (as long as some cell remains); the concrete mix
`["○", "Leather"]` yields exactly `"Leather"`; and the returned join never
ends in a separator character (comma or space). -/
theorem marker_cells_skip :
    (∀ (vt : String → Option String) (flag : ℕ) (before after : List String) (m : String),
        '○' ∈ m.data → before ++ after ≠ [] →
        get_validate_and_translate_value (before ++ m :: after) flag vt
          = get_validate_and_translate_value (before ++ after) flag vt)
    ∧ get_validate_and_translate_value ["○", "Leather"] 0 (fun _ => none) = some "Leather"
    ∧ (∀ (vt : String → Option String) (flag : ℕ) (cells : List String) (v : String) (c : Char),
        get_validate_and_translate_value cells flag vt = some v →
        v.data.getLast? = some c → c ≠ ',' ∧ c ≠ ' ') := by
  refine ⟨?_, rfl, ?_⟩
  · intro vt flag before after m hm hne
    unfold get_validate_and_translate_value
    rw [if_neg (by simp), if_neg hne]
    exact gvtvGo_skip_marker flag vt m hm after before ""
  · intro vt flag cells v c hres hlast
    unfold get_validate_and_translate_value at hres
    by_cases hcells : cells = []
    · rw [if_pos hcells] at hres; simp at hres
    · rw [if_neg hcells] at hres
      obtain ⟨a, rfl⟩ := gvtvGo_some_shape flag vt cells "" v hres
      have := rstrip_last_not_strip a c hlast
      unfold stripCh at this
      constructor
      · intro h; rw [h] at this; simp at this
      · intro h; rw [h] at this; simp at this

/-- C8 (witness): concrete instances — dropping the `"○"` cell from
`["○", "Leather"]` does not change the result, and the last character of
the join `"Leather"` is neither a comma nor a space. -/
theorem marker_cells_skip_witness :
    (get_validate_and_translate_value (([] : List String) ++ "○" :: ["Leather"]) 0 (fun _ => none)
        = get_validate_and_translate_value (([] : List String) ++ ["Leather"]) 0 (fun _ => none))
    ∧ (('r' : Char) ≠ ',' ∧ ('r' : Char) ≠ ' ') :=
  ⟨marker_cells_skip.1 (fun _ => none) 0 [] ["Leather"] "○" (by decide) (by decide),
   marker_cells_skip.2.2 (fun _ => none) 0 ["Leather"] "Leather" 'r' rfl rfl⟩

/-- C9 (counterexample): the CVT override is not independent of the value
lookup — a lookup containing the key `"Вариатор"` changes the displayed
value of a `"CVT"` cell. -/
theorem cvt_override_cex :
    get_validate_and_translate_value ["CVT"] 0
        (fun s => if s = "Вариатор" then some "X" else none) = some "X"
    ∧ ("X" : String) ≠ "Вариатор" :=
  ⟨rfl, by decide⟩

/-- C9 (amended): a cell whose substituted text contains `"CVT"` (and that
is neither empty nor an option marker) validates to `"Вариатор"`, applied
after the generic substitutions; the joined display value is `"Вариатор"`
provided the value lookup has no entry for `"Вариатор"` — the override's
result is still subject to the value lookup like any other value. -/
theorem cvt_override_amended :
    (∀ (v : String) (flag : ℕ), '○' ∉ v.data → v ≠ "" →
        containsSeq ("CVT" : String).data (applyReplacements v).data = true →
        validate_value v flag = some "Вариатор")
    ∧ (∀ (vt : String → Option String) (flag : ℕ) (v : String),
        vt "Вариатор" = none → '○' ∉ v.data → v ≠ "" →
        containsSeq ("CVT" : String).data (applyReplacements v).data = true →
        get_validate_and_translate_value [v] flag vt = some "Вариатор") := by
  have h1 : ∀ (v : String) (flag : ℕ), '○' ∉ v.data → v ≠ "" →
      containsSeq ("CVT" : String).data (applyReplacements v).data = true →
      validate_value v flag = some "Вариатор" := by
    intro v flag h0 hne hcvt
    unfold validate_value
    rw [if_neg h0, if_neg hne, if_pos hcvt]
  refine ⟨h1, ?_⟩
  intro vt flag v hvt h0 hne hcvt
  unfold get_validate_and_translate_value
  rw [if_neg (by simp)]
  rw [gvtvGo, h1 v flag h0 hne hcvt, Option.some_bind]
  rw [if_neg (by decide), if_neg (by decide)]
  unfold translateValue
  rw [hvt]
  rfl

/-- C9 (witness): concrete instance at the cell `"CVT"` with an empty
value lookup. -/
theorem cvt_override_witness :
    validate_value "CVT" 0 = some "Вариатор"
    ∧ get_validate_and_translate_value ["CVT"] 0 (fun _ => none) = some "Вариатор" :=
  ⟨cvt_override_amended.1 "CVT" 0 (by decide) (by decide) (by decide),
   cvt_override_amended.2 (fun _ => none) 0 "CVT" rfl (by decide) (by decide) (by decide)⟩

/-- C10: the literal string `"option"` is an in-band sentinel — a raw cell
whose text is exactly `"option"` contains no `○` marker glyph, yet
validates to the sentinel for every flag value and is silently dropped
from the joined value exactly as an unselected option marker would be. -/
theorem inband_sentinel_drop :
    ('○' ∉ ("option" : String).data)
    ∧ (∀ flag : ℕ, validate_value "option" flag = some "option")
    ∧ (∀ vt : String → Option String,
        get_validate_and_translate_value ["option", "Leather"] 0 vt
          = get_validate_and_translate_value ["Leather"] 0 vt)
    ∧ get_validate_and_translate_value ["option", "Leather"] 0 (fun _ => none) = some "Leather" := by
  refine ⟨by decide, fun flag => rfl, ?_, rfl⟩
  intro vt
  rfl

/-! ### `src/main_page_parser.py` — `_text_to_float` -/

/-- Is `c` an ASCII decimal digit?  (predicate used by the decimal-literal
model of Python's `float` builtin). -/
def isDig (c : Char) : Bool := decide (48 ≤ c.toNat ∧ c.toNat ≤ 57)

/-- Value of a list of ASCII digits read left to right. -/
def digitsToNat (s : List Char) : ℕ := s.foldl (fun n c => 10 * n + (c.toNat - 48)) 0

/-- Strip an optional leading `+`/`-` sign, returning the sign as `ℚ`. -/
def stripSignQ : List Char → ℚ × List Char
  | [] => (1, [])
  | c :: t => if c = '+' then (1, t) else if c = '-' then (-1, t) else (1, c :: t)

/-- Strip an optional leading `+`/`-` sign, returning the sign as `ℤ`. -/
def stripSignZ : List Char → ℤ × List Char
  | [] => (1, [])
  | c :: t => if c = '+' then (1, t) else if c = '-' then (-1, t) else (1, c :: t)

/-- Exponent part of a float literal: `[sign] digits`, scaling the
mantissa by the corresponding power of ten. -/
def parseExpPart (sgn m : ℚ) (t : List Char) : Option ℚ :=
  if ((stripSignZ t).2.takeWhile isDig) = [] ∨ ((stripSignZ t).2.dropWhile isDig) ≠ [] then none
  else some (sgn * m * (10 : ℚ) ^ ((stripSignZ t).1 * (digitsToNat ((stripSignZ t).2.takeWhile isDig) : ℤ)))

/-- Remainder of a float literal after its integer-digit prefix `ip`:
either nothing, a fractional part, or an exponent, as in Python's decimal
float grammar. -/
def parseTail (sgn : ℚ) (ip : List Char) : List Char → Option ℚ
  | [] => if ip = [] then none else some (sgn * (digitsToNat ip : ℚ))
  | c :: t =>
    if c = '.' then
      if ip = [] ∧ t.takeWhile isDig = [] then none
      else
        match t.dropWhile isDig with
        | [] =>
          some (sgn * ((digitsToNat ip : ℚ)
            + (digitsToNat (t.takeWhile isDig) : ℚ) / 10 ^ (t.takeWhile isDig).length))
        | e :: u =>
          if e = 'e' ∨ e = 'E' then
            parseExpPart sgn ((digitsToNat ip : ℚ)
              + (digitsToNat (t.takeWhile isDig) : ℚ) / 10 ^ (t.takeWhile isDig).length) u
          else none
    else if c = 'e' ∨ c = 'E' then
      if ip = [] then none else parseExpPart sgn (digitsToNat ip : ℚ) t
    else none

/-- Model of Python's `float` builtin on the decimal-literal grammar
`[sign] (digits [. digits] | . digits) [(e|E) [sign] digits]`; the value
is exact in `ℚ`.  `inf`/`nan`, underscores and surrounding whitespace
(none of which occur in the scraped numeral text) are not modelled. -/
def pyFloat (s : List Char) : Option ℚ :=
  parseTail (stripSignQ s).1 ((stripSignQ s).2.takeWhile isDig) ((stripSignQ s).2.dropWhile isDig)

/-- The glyph substitution of `_text_to_float`:
`''.join(SPECIAL_CHARS_TO_NUMBERS.get(c, c) for c in text)` — characters
absent from the table pass through unchanged. -/
def cleanText : List Char → List Char
  | [] => []
  | c :: t => (SPECIAL_CHARS_TO_NUMBERS c).getD [c] ++ cleanText t

/-- `CarParser._text_to_float` from `src/main_page_parser.py`: substitute
the known numeral glyphs, then parse the result as a float;
`none` embeds the `ValueError` that `float` raises on a malformed
literal. -/
def text_to_float (s : List Char) : Option ℚ := pyFloat (cleanText s)

/-! ### Claim theorems about scalar parsing -/

theorem cleanText_eq_nil (s : List Char)
    (h : ∀ c ∈ s, SPECIAL_CHARS_TO_NUMBERS c = some []) : cleanText s = [] := by
  induction s with
  | nil => rfl
  | cons c t ih =>
    rw [cleanText, h c (List.mem_cons_self c t)]
    simp only [Option.getD_some, List.nil_append]
    exact ih fun x hx => h x (List.mem_cons_of_mem c hx)

theorem table_none_of_isDig (c : Char) (h : isDig c = true) :
    SPECIAL_CHARS_TO_NUMBERS c = none := by
  obtain ⟨h1, h2⟩ := of_decide_eq_true h
  unfold SPECIAL_CHARS_TO_NUMBERS
  repeat rw [if_neg (by omega)]

theorem cleanText_eq_self (s : List Char)
    (h : ∀ c ∈ s, SPECIAL_CHARS_TO_NUMBERS c = none) : cleanText s = s := by
  induction s with
  | nil => rfl
  | cons c t ih =>
    rw [cleanText, h c (List.mem_cons_self c t)]
    simp only [Option.getD_none, List.singleton_append]
    rw [ih fun x hx => h x (List.mem_cons_of_mem c hx)]

theorem stripSignQ_of_digit (c : Char) (t : List Char) (hc : isDig c = true) :
    stripSignQ (c :: t) = (1, c :: t) := by
  rw [stripSignQ, if_neg, if_neg]
  · intro h; subst h; exact absurd hc (by decide)
  · intro h; subst h; exact absurd hc (by decide)

/-- C4 (counterexample): the text `"12.5"` consists entirely of characters
outside the substitution table, yet `_text_to_float` does not raise — it
returns `12.5`.  The claimed "error iff a character is outside the table"
is false. -/
theorem numeric_glyph_cex :
    (∃ c ∈ ("12.5" : String).data, SPECIAL_CHARS_TO_NUMBERS c = none)
    ∧ text_to_float ("12.5" : String).data = some (25 / 2) := by
  constructor
  · exact ⟨'1', by decide, by decide⟩
  · have h1 : text_to_float ("12.5" : String).data
        = some ((1 : ℚ) * ((digitsToNat ['1', '2'] : ℚ)
            + (digitsToNat ['5'] : ℚ) / 10 ^ (1 : ℕ))) := rfl
    have h2 : digitsToNat ['1', '2'] = 12 := rfl
    have h3 : digitsToNat ['5'] = 5 := rfl
    rw [h1, h2, h3]
    refine congrArg some ?_
    push_cast
    norm_num

/-- C4 (amended): `_text_to_float` raises exactly when the
glyph-substituted text fails to parse as a decimal float literal.
Characters outside the table pass through unchanged, so an all-digit text
parses successfully (no error) even though every character is outside the
table, while a text of unit glyphs only (each substituting to the empty
string) raises even though every character is inside the table. -/
theorem text_to_float_amended :
    (∀ s : List Char, (∀ c ∈ s, SPECIAL_CHARS_TO_NUMBERS c = some []) →
        text_to_float s = none)
    ∧ (∀ s : List Char, s ≠ [] → (∀ c ∈ s, isDig c = true) →
        text_to_float s = some ((digitsToNat s : ℕ) : ℚ)) := by
  constructor
  · intro s h
    unfold text_to_float
    rw [cleanText_eq_nil s h]
    rfl
  · intro s hne h
    unfold text_to_float
    rw [cleanText_eq_self s fun c hc => table_none_of_isDig c (h c hc)]
    cases s with
    | nil => exact absurd rfl hne
    | cons c t =>
      unfold pyFloat
      rw [stripSignQ_of_digit c t (h c (List.mem_cons_self c t))]
      simp only
      rw [List.takeWhile_eq_self_iff.mpr h, List.dropWhile_eq_nil_iff.mpr h]
      rw [parseTail, if_neg hne, one_mul]

/-- C4 (witness): the unit glyph `` alone raises, while the plain
digit text `"125"` parses. -/
theorem text_to_float_amended_witness :
    text_to_float [''] = none
    ∧ text_to_float ("125" : String).data = some ((digitsToNat ("125" : String).data : ℕ) : ℚ) :=
  ⟨text_to_float_amended.1 [''] (by decide),
   text_to_float_amended.2 ("125" : String).data (by decide) (by decide)⟩

/-! ### `src/pdf_creator.py` — `draw_car_info` text blocks -/

/-- One `{"name": ..., "value": ...}` attribute pair of
`configuration_info`. -/
structure ConfigItem where
  name : String
  value : String

/-- The listing record handed to `create_pdf` (`info.json` shape):
scalars, attribute pairs, and the pixel dimensions of the downloaded
images (the fields the layout engine reads). -/
structure CarData where
  title : String
  mileage : ℚ
  configuration_info : List ConfigItem
  images : List (ℕ × ℕ)

/-- Python `int()` truncation toward zero on an exact rational. -/
def pyInt (q : ℚ) : ℤ := if q < 0 then -⌊-q⌋ else ⌊q⌋

/-- Insert a comma after every three characters of a reversed digit
string (worker for the `{:,}` format specifier). -/
def commaGroup3 : List Char → List Char
  | d1 :: d2 :: d3 :: d4 :: rest => d1 :: d2 :: d3 :: ',' :: commaGroup3 (d4 :: rest)
  | l => l

/-- Model of Python's `f"{n:,}"` for an integer: decimal digits grouped in
threes by commas, with a leading minus sign for negative values. -/
def pyFormatComma (n : ℤ) : String :=
  (if n < 0 then "-" else "") ++ String.mk ((commaGroup3 (Nat.toDigits 10 n.natAbs).reverse).reverse)

/-- The mileage text block of `draw_car_info`:
`f"Пробег: {int(mileage * 10000):,} км"`. -/
def mileageBlockText (m : ℚ) : String :=
  "Пробег: " ++ pyFormatComma (pyInt (m * 10000)) ++ " км"

/-- The `"name: value"` text blocks drawn for the configuration items. -/
def configBlocks (fs ls : ℚ) (items : List ConfigItem) : List (String × ℚ × ℚ) :=
  items.map (fun it => (it.name ++ ": " ++ it.value, fs, ls))

/-- `draw_car_info` as the ordered list of `(text, font_size,
line_spacing)` blocks it draws: with `main_app_flag` set, the title
(slightly larger), the mileage line, then the attribute pairs; without
it, the attribute pairs only (the caller then passes the attribute list
itself, embedded here as a record holding only that list). -/
def drawCarInfo (flag : Bool) (car : CarData) (fs ls : ℚ) : List (String × ℚ × ℚ) :=
  if flag then
    (car.title, fs + 4, ls + 2)
      :: (mileageBlockText car.mileage, fs, ls)
      :: configBlocks fs ls car.configuration_info
  else configBlocks fs ls car.configuration_info

/-! ### Claim theorems about the mileage text -/

/-- C2 (counterexample): the mileage scalar `1.23` renders as
`"Пробег: 12,300 км"` — the `{:,}` format specifier inserts a comma
thousands separator, so the rendered block is not the undecorated
`"Пробег: 12300 км"` the claim states. -/
theorem pyInt_mileage_example : pyInt ((123 / 100 : ℚ) * 10000) = 12300 := by
  have h : (123 / 100 : ℚ) * 10000 = 12300 := by norm_num
  rw [h]
  unfold pyInt
  rw [if_neg (by norm_num)]
  norm_num

theorem mileage_comma_cex :
    mileageBlockText (123 / 100) = "Пробег: 12,300 км"
    ∧ ("Пробег: 12,300 км" : String) ≠ "Пробег: 12300 км" := by
  constructor
  · unfold mileageBlockText
    rw [pyInt_mileage_example]
    decide
  · decide

/-- C2 (amended): for every mileage value the second block drawn by
`draw_car_info` is the mileage line, built by multiplying the scalar by
10,000, truncating to an integer, and formatting with a comma thousands
separator; `1.23` renders as `"Пробег: 12,300 км"`. -/
theorem mileage_format_amended :
    (∀ (car : CarData) (fs ls : ℚ),
        (drawCarInfo true car fs ls)[1]? = some (mileageBlockText car.mileage, fs, ls))
    ∧ (∀ m : ℚ, mileageBlockText m = "Пробег: " ++ pyFormatComma (pyInt (m * 10000)) ++ " км")
    ∧ mileageBlockText (123 / 100) = "Пробег: 12,300 км" := by
  refine ⟨?_, fun _ => rfl, ?_⟩
  · intro car fs ls
    simp [drawCarInfo]
  · unfold mileageBlockText
    rw [pyInt_mileage_example]
    decide

/-! ### `download_images` file names and `draw_images_from_dir` order -/

/-- Code-point comparison of reversed-insensitive character lists: the
lexicographic string order Python's `sorted` uses. -/
def charsLe : List Char → List Char → Bool
  | [], _ => true
  | _ :: _, [] => false
  | a :: as, b :: bs =>
    if a.toNat < b.toNat then true
    else if b.toNat < a.toNat then false
    else charsLe as bs

/-- Lexicographic (code point) order on strings, as used by Python
`sorted` on `os.listdir`. -/
def strLe (a b : String) : Bool := charsLe a.data b.data

/-- Insert into a sorted list (worker for `sortStrings`). -/
def insertSorted (a : String) : List String → List String
  | [] => [a]
  | b :: bs => if strLe a b = true then a :: b :: bs else b :: insertSorted a bs

/-- Model of Python `sorted` on a list of distinct strings (stable
insertion sort under `strLe`). -/
def sortStrings : List String → List String
  | [] => []
  | a :: as => insertSorted a (sortStrings as)

/-- ASCII lower-casing of a file name (model of `str.lower`). -/
def strToLower (s : String) : String := String.mk (s.data.map Char.toLower)

/-- Model of Python `str.endswith`. -/
def endsWithStr (suf s : String) : Bool := leadsWith suf.data.reverse s.data.reverse

/-- The extension filter of `draw_images_from_dir`:
`fname.lower().endswith(('.jpg', '.jpeg', '.png', '.webp'))`. -/
def hasImgExt (f : String) : Bool :=
  endsWithStr ".jpg" (strToLower f) || endsWithStr ".jpeg" (strToLower f)
    || endsWithStr ".png" (strToLower f) || endsWithStr ".webp" (strToLower f)

/-- The order in which `draw_images_from_dir` visits image files: the
directory listing sorted lexicographically, restricted to image
extensions. -/
def drawnFiles (files : List String) : List String :=
  (sortStrings files).filter (fun f => hasImgExt f)

/-- The file names `download_images` writes for the image URLs, in URL
order: `image_1.<ext>`, `image_2.<ext>`, … (1-based `enumerate`). -/
def imageFilenames (exts : List String) : List String :=
  ((List.range exts.length).zip exts).map (fun p => "image_" ++ toString (p.1 + 1) ++ "." ++ p.2)

/-- C3: with ten downloaded images (plus the `info.json` the parser also
stores in the directory), `draw_images_from_dir` visits the files in
lexicographic name order — `image_10.jpg` is drawn second, immediately
after `image_1.jpg` — so the drawing order differs from the order the
URLs were given, contradicting the claim for ten or more images. -/
theorem image_order_bug :
    drawnFiles ("info.json" :: imageFilenames (List.replicate 10 "jpg"))
      = ["image_1.jpg", "image_10.jpg", "image_2.jpg", "image_3.jpg", "image_4.jpg",
         "image_5.jpg", "image_6.jpg", "image_7.jpg", "image_8.jpg", "image_9.jpg"]
    ∧ drawnFiles ("info.json" :: imageFilenames (List.replicate 10 "jpg"))
      ≠ imageFilenames (List.replicate 10 "jpg") := by
  constructor
  · decide
  · decide

/-! ### `src/pdf_creator.py` — the cursor-based layout engine -/

/-- The mutable state of `PDFWriter` that layout observes: the number of
pages committed so far (`showPage` calls on the canvas) and the vertical
cursor `y_cursor`. -/
structure LayoutState where
  pages : ℕ
  y : ℚ

/-- One iteration of the line loop in `_draw_text_block`: if the line
would cross below the margin, commit the page and reset the cursor to the
top, then draw and decrement the cursor by the line spacing. -/
def drawLine (H M L : ℚ) (s : LayoutState) : LayoutState :=
  if s.y - L < M then ⟨s.pages + 1, H - M - L⟩ else ⟨s.pages, s.y - L⟩

/-- The full line loop of `_draw_text_block` over the wrapped lines. -/
def drawTextBlockLines (H M L : ℚ) (lines : List String) (s : LayoutState) : LayoutState :=
  lines.foldl (fun st _ => drawLine H M L st) s

/-- The per-line trace of `_draw_text_block`: the (state before, state
after) pair for every wrapped line drawn. -/
def lineTrace (H M L : ℚ) : LayoutState → List String → List (LayoutState × LayoutState)
  | _, [] => []
  | s, _ :: rest => (s, drawLine H M L s) :: lineTrace H M L (drawLine H M L s) rest

/-- Modelled from the spec: split text into words at whitespace
(`str.split()` inside the wrapping routine); the reportlab `simpleSplit`
library function is not part of this repository's sources. -/
def wordsAux : List Char → List Char → List String
  | [], cur => if cur = [] then [] else [String.mk cur.reverse]
  | c :: rest, cur =>
    if c.isWhitespace then
      if cur = [] then wordsAux rest []
      else String.mk cur.reverse :: wordsAux rest []
    else wordsAux rest (c :: cur)

/-- Modelled from the spec: the words of a text, in order. -/
def splitWords (text : String) : List String := wordsAux text.data []

/-- Modelled from the spec: greedy word wrap — pack words into the
current line while its rendered width stays within the limit, breaking
only at whitespace, an overlong word standing on its own line. -/
def wrapGreedy (sw : String → ℚ) (maxW : ℚ) : List String → String → List String
  | [], cur => if cur = "" then [] else [cur]
  | w :: ws, cur =>
    if cur = "" then wrapGreedy sw maxW ws w
    else if sw (cur ++ " " ++ w) ≤ maxW then wrapGreedy sw maxW ws (cur ++ " " ++ w)
    else cur :: wrapGreedy sw maxW ws w

/-- Modelled from the spec: the wrapped lines of a text block (reportlab's
`simpleSplit(text, font, size, width)`), parameterized by the rendered
width function `sw` of the registered font. -/
def simpleSplitModel (sw : String → ℚ) (maxW : ℚ) (text : String) : List String :=
  wrapGreedy sw maxW (splitWords text) ""

/-- `PDFWriter._draw_text_block`: wrap the text at width
`maxW = width - 2 * margin`, then run the line loop.  `sw fs` is the
rendered-width function at font size `fs`. -/
def drawTextBlock (sw : ℚ → String → ℚ) (H M maxW : ℚ) (text : String) (fs L : ℚ)
    (s : LayoutState) : LayoutState :=
  drawTextBlockLines H M L (simpleSplitModel (sw fs) maxW text) s

/-- The sequence of `_draw_text_block` calls made by `draw_car_info`,
one per `(text, font_size, line_spacing)` block. -/
def renderBlocks (sw : ℚ → String → ℚ) (H M maxW : ℚ) (blocks : List (String × ℚ × ℚ))
    (s : LayoutState) : LayoutState :=
  blocks.foldl (fun st b => drawTextBlock sw H M maxW b.1 b.2.1 b.2.2 st) s

/-- One image iteration of `draw_images_from_dir`: skip degenerate
dimensions (the `except` path of `Image.open`/drawing), otherwise break
the page when the scaled image would cross below `margin * 1.5`, draw,
and decrement the cursor by the draw height plus the image spacing 10. -/
def drawImage (H M wid : ℚ) (d : ℕ × ℕ) (s : LayoutState) : LayoutState :=
  if d.1 = 0 ∨ d.2 = 0 then s
  else if s.y - wid / ((d.1 : ℚ) / (d.2 : ℚ)) < M * 3 / 2 then
    ⟨s.pages + 1, H - M - wid / ((d.1 : ℚ) / (d.2 : ℚ)) - 10⟩
  else ⟨s.pages, s.y - wid / ((d.1 : ℚ) / (d.2 : ℚ)) - 10⟩

/-- `PDFWriter.draw_images_from_dir`: if the directory exists, force a
page break before the first image by setting the cursor to `-1`, then
draw the images (their pixel dimensions, in visiting order). -/
def drawImagesFromDir (H M wid : ℚ) (dirExists : Bool) (imgs : List (ℕ × ℕ))
    (s : LayoutState) : LayoutState :=
  if dirExists then imgs.foldl (fun st d => drawImage H M wid d st) ⟨s.pages, -1⟩ else s

/-- `PDFWriter.save`: commit the current page when the cursor has moved
below `height - 10`, then write the document out. -/
def savePdf (H : ℚ) (s : LayoutState) : LayoutState :=
  if s.y < H - 10 then ⟨s.pages + 1, s.y⟩ else s

/-- reportlab's A4 width in points, exactly: `210 * 72 / 25.4`. -/
def A4width : ℚ := 75600 / 127

/-- reportlab's A4 height in points, exactly: `297 * 72 / 25.4`. -/
def A4height : ℚ := 106920 / 127

/-- `create_pdf` from `src/pdf_creator.py` on an already-loaded record:
a fresh `PDFWriter` (A4 page, margin 50, cursor at `height - margin`),
the `draw_car_info` text blocks (default font size 12, line spacing 15),
the image pass when `main_app_flag` is set, then `save`. -/
def createPdf (sw : ℚ → String → ℚ) (flag : Bool) (car : CarData) (dirExists : Bool) :
    LayoutState :=
  savePdf A4height
    (if flag then
      drawImagesFromDir A4height 50 A4width dirExists car.images
        (renderBlocks sw A4height 50 (A4width - 2 * 50) (drawCarInfo flag car 12 15)
          ⟨0, A4height - 50⟩)
    else
      renderBlocks sw A4height 50 (A4width - 2 * 50) (drawCarInfo flag car 12 15)
        ⟨0, A4height - 50⟩)

/-! ### Claim theorems about the layout engine -/

/-- C5: for every geometry with nonnegative line spacing and
`2 * margin ≤ height`, every line drawn by the text-block loop advances
the page exactly once when (and only when) the line would cross below the
margin (`y - line_spacing < margin`), and after every line draw the
cursor never lies below `margin - line_spacing`. -/
theorem text_block_page_break (H M L : ℚ) (s : LayoutState) (lines : List String)
    (hL : 0 ≤ L) (hHM : 2 * M ≤ H) :
    ∀ p ∈ lineTrace H M L s lines,
      p.2.pages = p.1.pages + (if p.1.y - L < M then 1 else 0) ∧ M - L ≤ p.2.y := by
  induction lines generalizing s with
  | nil => intro p hp; simp [lineTrace] at hp
  | cons l rest ih =>
    intro p hp
    rw [lineTrace] at hp
    rcases List.mem_cons.mp hp with h | h
    · subst h
      constructor
      · unfold drawLine
        split_ifs <;> simp
      · unfold drawLine
        split_ifs with hc
        · simp only
          linarith
        · simp only
          linarith [not_lt.mp hc]
    · exact ih (drawLine H M L s) p h

/-- C5 (witness): concrete instance — at cursor height 60 with margin 50,
spacing 15 and page height 842, the first drawn line advances the page
exactly once and leaves the cursor above `margin - line_spacing`. -/
theorem text_block_page_break_witness :
    (drawLine 842 50 15 ⟨0, 60⟩).pages
        = (⟨0, 60⟩ : LayoutState).pages + (if (⟨0, 60⟩ : LayoutState).y - 15 < 50 then 1 else 0)
    ∧ (50 : ℚ) - 15 ≤ (drawLine 842 50 15 ⟨0, 60⟩).y :=
  text_block_page_break 842 50 15 ⟨0, 60⟩ ["a", "b"] (by norm_num) (by norm_num)
    (⟨0, 60⟩, drawLine 842 50 15 ⟨0, 60⟩)
    (by rw [lineTrace]; exact List.mem_cons_self _ _)

/-- C6: drawing the empty string is an identity on the layout state — the
empty text wraps to zero lines, so no page advance happens and both the
page count and the cursor are unchanged, at every cursor position. -/
theorem empty_text_block_id (sw : ℚ → String → ℚ) (H M maxW fs L : ℚ) (s : LayoutState) :
    drawTextBlock sw H M maxW "" fs L s = s := rfl

theorem drawLine_y_le (H M L : ℚ) (s : LayoutState) (hL : 0 ≤ L) (hy : s.y ≤ H - M) :
    (drawLine H M L s).y ≤ H - M := by
  unfold drawLine
  split_ifs <;> simp only <;> linarith

theorem drawTextBlockLines_y_le (H M L : ℚ) (lines : List String) (hL : 0 ≤ L) :
    ∀ s : LayoutState, s.y ≤ H - M → (drawTextBlockLines H M L lines s).y ≤ H - M := by
  induction lines with
  | nil => intro s hy; exact hy
  | cons l rest ih =>
    intro s hy
    simp only [drawTextBlockLines, List.foldl_cons]
    exact ih (drawLine H M L s) (drawLine_y_le H M L s hL hy)

theorem renderBlocks_y_le (sw : ℚ → String → ℚ) (H M maxW : ℚ) (blocks : List (String × ℚ × ℚ))
    (hb : ∀ b ∈ blocks, (0 : ℚ) ≤ b.2.2) :
    ∀ s : LayoutState, s.y ≤ H - M → (renderBlocks sw H M maxW blocks s).y ≤ H - M := by
  induction blocks with
  | nil => intro s hy; exact hy
  | cons b bs ih =>
    intro s hy
    simp only [renderBlocks, List.foldl_cons]
    exact ih (fun x hx => hb x (List.mem_cons_of_mem b hx)) _
      (drawTextBlockLines_y_le H M b.2.2 _ (hb b (List.mem_cons_self b bs)) s hy)

theorem drawImage_y_le (H M wid : ℚ) (d : ℕ × ℕ) (hw : 0 ≤ wid) (s : LayoutState)
    (hy : s.y ≤ H - M) : (drawImage H M wid d s).y ≤ H - M := by
  have hdh : (0 : ℚ) ≤ wid / ((d.1 : ℚ) / (d.2 : ℚ)) :=
    div_nonneg hw (div_nonneg (Nat.cast_nonneg _) (Nat.cast_nonneg _))
  unfold drawImage
  split_ifs
  · exact hy
  · simp only
    linarith
  · simp only
    linarith

theorem imagesFold_y_le (H M wid : ℚ) (hw : 0 ≤ wid) (imgs : List (ℕ × ℕ)) :
    ∀ s : LayoutState, s.y ≤ H - M →
      (imgs.foldl (fun st d => drawImage H M wid d st) s).y ≤ H - M := by
  induction imgs with
  | nil => intro s hy; exact hy
  | cons d ds ih =>
    intro s hy
    simp only [List.foldl_cons]
    exact ih _ (drawImage_y_le H M wid d hw s hy)

theorem drawImagesFromDir_y_le (H M wid : ℚ) (dirExists : Bool) (imgs : List (ℕ × ℕ))
    (hw : 0 ≤ wid) (hneg : (-1 : ℚ) ≤ H - M) (s : LayoutState) (hy : s.y ≤ H - M) :
    (drawImagesFromDir H M wid dirExists imgs s).y ≤ H - M := by
  unfold drawImagesFromDir
  split_ifs
  · exact imagesFold_y_le H M wid hw imgs ⟨s.pages, -1⟩ hneg
  · exact hy

theorem savePdf_pages (H : ℚ) (s : LayoutState) (h : s.y < H - 10) :
    (savePdf H s).pages = s.pages + 1 := by
  unfold savePdf
  rw [if_pos h]

theorem drawCarInfo_ls_nonneg (flag : Bool) (car : CarData) :
    ∀ b ∈ drawCarInfo flag car 12 15, (0 : ℚ) ≤ b.2.2 := by
  intro b hb
  cases flag with
  | false =>
    simp [drawCarInfo, configBlocks] at hb
    obtain ⟨it, _, rfl⟩ := hb
    norm_num
  | true =>
    simp [drawCarInfo, configBlocks] at hb
    rcases hb with rfl | rfl | ⟨it, _, rfl⟩ <;> norm_num

/-- C7: every completed render pass commits at least one page — for every
input record (including one with no attributes and no images), both with
and without the image pass, the saved document's committed page count is
at least 1. -/
theorem render_commits_page (sw : ℚ → String → ℚ) (flag : Bool) (car : CarData)
    (dirExists : Bool) : 1 ≤ (createPdf sw flag car dirExists).pages := by
  have h1 : (renderBlocks sw A4height 50 (A4width - 2 * 50) (drawCarInfo flag car 12 15)
      ⟨0, A4height - 50⟩).y ≤ A4height - 50 :=
    renderBlocks_y_le sw A4height 50 (A4width - 2 * 50) (drawCarInfo flag car 12 15)
      (drawCarInfo_ls_nonneg flag car) ⟨0, A4height - 50⟩ (le_refl _)
  unfold createPdf
  cases flag with
  | false =>
    rw [if_neg (by decide)]
    rw [savePdf_pages A4height _ (by linarith)]
    omega
  | true =>
    rw [if_pos rfl]
    have h2 : (drawImagesFromDir A4height 50 A4width dirExists car.images
        (renderBlocks sw A4height 50 (A4width - 2 * 50) (drawCarInfo true car 12 15)
          ⟨0, A4height - 50⟩)).y ≤ A4height - 50 :=
      drawImagesFromDir_y_le A4height 50 A4width dirExists car.images
        (by norm_num [A4width]) (by norm_num [A4height]) _ h1
    rw [savePdf_pages A4height _ (by linarith)]
    omega
